import Mathlib

set_option linter.unusedVariables false

/-!
Shallow embedding of the playback orchestration core of `ym-player-bot`,
translated from `src/src/services/player.service.ts`.  The per-session
mutable maps of `PlayerService` are modelled as explicit state passing:
`Option PlayerState` stands for `this.playerStates.get(guildId)`, the
closure variable `isLoadingTrack` of `setupInfinitePlayback` is threaded
separately, `setTimeout` calls become `Pending` values whose callbacks are
separate `fire...` functions, and all presentation / transport side effects
are collected in an `Effect` list.
-/

namespace YmBot

/-- Artist entry of a Yandex track, as built in player.service.ts line 314. -/
structure Artist where
  name : String
  deriving DecidableEq, Repr

/-- Album entry of a Yandex track, as built in player.service.ts line 315. -/
structure Album where
  title : String
  deriving DecidableEq, Repr

/-- The `IYandexTrack` interface (declared in `../types/yandexTrack.ts`,
absent from src/); its fields are reconstructed from their uses in
player.service.ts lines 311-317 and 606-612. -/
structure IYandexTrack where
  id : String
  title : String
  artists : List Artist
  albums : List Album
  coverUri : String
  deriving DecidableEq, Repr

/-- The `ITrackInfo` interface (declared in `yandex-music.service.ts`,
absent from src/); fields reconstructed from their uses in
player.service.ts (`id`, `title`, `artist`, `album`, `coverUrl`, the last
accessed with optional chaining, hence `Option`). -/
structure ITrackInfo where
  id : String
  title : String
  artist : String
  album : String
  coverUrl : Option String
  deriving DecidableEq, Repr

/-- JS `String.prototype.replace` with a plain string pattern replaces only
the first occurrence; auxiliary recursion over the character list. -/
def replaceFirstAux (rep pat : List Char) : List Char → List Char
  | [] => []
  | c :: rest =>
    if pat.isPrefixOf (c :: rest) then rep ++ (c :: rest).drop pat.length
    else c :: replaceFirstAux rep pat rest

/-- JS `s.replace(pat, rep)` for string patterns (first occurrence only). -/
def replaceFirst (s pat rep : String) : String :=
  String.mk (replaceFirstAux rep.data pat.data s.data)

/-- Models `coverUrl?.replace('https://', '').replace('400x400', '%%') || ''`
(player.service.ts lines 316 and 611).  A missing `coverUrl` and an empty
replacement result both yield `''` under `|| ''`. -/
def coverToUri : Option String → String
  | none => ""
  | some u => replaceFirst (replaceFirst u "https://" "") "400x400" "%%"

/-- The inline `currentTrackAsYandexTrack` conversion of player.service.ts
lines 311-317 (identical copy at lines 606-612). -/
def toYandexTrack (ct : ITrackInfo) : IYandexTrack :=
  { id := ct.id
    title := ct.title
    artists := [⟨ct.artist⟩]
    albums := [⟨ct.album⟩]
    coverUri := coverToUri ct.coverUrl }

/-- Modelled from the spec: `trackToTrackInfo` is implemented in
`yandex-music.service.ts`, which is not under src/.  The spec (section 3)
fixes a Track as identifier, title, artist display name, album display name
and cover-art reference, so the conversion projects the first artist and
album and rebuilds the cover reference (inverse of the `coverUri`
construction above). -/
def trackToTrackInfo (t : IYandexTrack) : ITrackInfo :=
  { id := t.id
    title := t.title
    artist := ((t.artists.head?).map Artist.name).getD ""
    album := ((t.albums.head?).map Album.title).getD ""
    coverUrl :=
      if t.coverUri = "" then none
      else some ("https://" ++ replaceFirst t.coverUri "%%" "400x400") }

/-- The `PlayerState` interface of player.service.ts lines 36-48.  The
`embedMessage` handle is not part of the model; its presence is implicit in
the fact that a state is registered at all (see `playTrack`). -/
structure PlayerState where
  isPlaying : Bool
  currentTrack : Option ITrackInfo
  previousTracks : List IYandexTrack
  trackQueue : List IYandexTrack
  accessToken : String
  userId : String
  stationId : String
  trackStartTime : Option Nat
  retryCount : Nat
  lastTrackId : Option String
  deriving DecidableEq, Repr

/-- Side effects on the transport and the presentation collaborator,
in the order the source performs them. -/
inductive Effect where
  | notifyLoading (track : ITrackInfo)
  | feedbackRequested (trackId : String)
  | streamError (title : String)
  | playOnTransport (track : ITrackInfo)
  | notifyNowPlaying (track : ITrackInfo)
  | notifyRecovering (title : String)
  | notifyTransientError (title : String)
  | notifyExhausted
  | stopTransport
  | destroyConnection
  | notifyStopped
  | emitIdle
  deriving DecidableEq, Repr

/-- The four `setTimeout` sites of `setupInfinitePlayback`:
line 802 (idle-path retry), line 741 (error-path retry), line 832
(failed queue advance), line 857 (post-refill kick). -/
inductive Pending where
  | retryCurrent
  | errorRetry
  | failAdvance
  | refillKick
  deriving DecidableEq, Repr

/-- Delay in milliseconds passed to `setTimeout` at each site. -/
def pendingDelay : Pending → Nat
  | .retryCurrent => 3000
  | .errorRetry => 3000
  | .failAdvance => 3000
  | .refillKick => 1000

/-- Replies sent back to the interacting user by the button handlers. -/
inductive Reply where
  | notFound
  | noPrevious
  | prevOk
  | stopped
  deriving DecidableEq, Repr

/-- Environment of one event dispatch: the stream resolution oracle
(`getStreamUrl`), the refill batch `getStationTracks` would return
(`[]` for failure or exhaustion), the two `Date.now()` readings
(line 769 and line 644), and the outcome of the feedback call. -/
structure Env where
  resolve : String → Option String
  refill : List IYandexTrack
  now : Nat
  nowPlay : Nat
  fb : Bool

/-- Result of dispatching one transport event: the registry entry, the
`isLoadingTrack` closure flag, the timer this dispatch scheduled (if any)
and the emitted side effects. -/
structure StepOut where
  ps : Option PlayerState
  loading : Bool
  pending : Option Pending
  effects : List Effect
  deriving DecidableEq, Repr

/-- Result of `playTrack` (player.service.ts lines 549-662): the returned
boolean, the registry entry afterwards, and the side effects. -/
structure PlayResult where
  success : Bool
  state : Option PlayerState
  effects : List Effect
  deriving DecidableEq, Repr

/-- Models `playerState.trackStartTime ? currentTime - playerState.trackStartTime : 0`
(line 770); JS truthiness also sends a stored `0` to the `: 0` branch. -/
def playTime (tst : Option Nat) (now : Nat) : Nat :=
  match tst with
  | some t0 => if t0 = 0 then 0 else now - t0
  | none => 0

/-- History push of player.service.ts lines 614-619: when the history
already holds 10 or more entries, `shift()` drops the oldest (index 0)
before `push` appends the new entry at the end. -/
def pushHistory (hist : List IYandexTrack) (t : IYandexTrack) : List IYandexTrack :=
  (if hist.length ≥ 10 then hist.drop 1 else hist) ++ [t]

/-- The state mutations of a successful `playTrack` (lines 602-631 and
642-652 act on the same registry object, so they are merged): push the
old current track into the history, install the new one, record the start
time, the last track id (line 646 checks JS truthiness of `id`, modelled
as non-emptiness) and reset `retryCount`. -/
def startTrackState (ps : PlayerState) (trackInfo : ITrackInfo) (now : Nat) : PlayerState :=
  let ps1 :=
    match ps.currentTrack with
    | some ct => { ps with previousTracks := pushHistory ps.previousTracks (toYandexTrack ct) }
    | none => ps
  { ps1 with
    currentTrack := some trackInfo
    isPlaying := true
    trackStartTime := some now
    lastTrackId := if trackInfo.id = "" then none else some trackInfo.id
    retryCount := 0 }

/-- Function `playTrack` (player.service.ts lines 549-662).  `ps?` is
`this.playerStates.get(embedMessage?.guild?.id)`: when the session was
removed (or there is no embed message) the state blocks are skipped but
`player.play(resource)` on line 636 still runs.  `streamUrl` is the result
of `getStreamUrl`; `fb` is the outcome of `sendTrackStartedFeedback`,
modelled from the spec as a fire-and-forget signal that always resolves
(`yandex-music.service.ts` is not under src/) — the caller never reads it. -/
def playTrack (ps? : Option PlayerState) (trackInfo : ITrackInfo)
    (streamUrl : Option String) (now : Nat) (fb : Bool) : PlayResult :=
  match streamUrl with
  | none =>
    { success := false
      state := ps?
      effects := [.notifyLoading trackInfo, .feedbackRequested trackInfo.id,
                  .streamError trackInfo.title] }
  | some _ =>
    { success := true
      state := ps?.map (fun ps => startTrackState ps trackInfo now)
      effects := [.notifyLoading trackInfo, .feedbackRequested trackInfo.id,
                  .playOnTransport trackInfo, .notifyNowPlaying trackInfo] }

/-- The `AudioPlayerStatus.Idle` handler of `setupInfinitePlayback`
(player.service.ts lines 758-882). -/
def onIdle (registry : Option PlayerState) (loading : Bool) (env : Env) : StepOut :=
  match registry with
  | none => ⟨none, loading, none, []⟩
  | some ps =>
    if loading then ⟨some ps, loading, none, []⟩
    else if playTime ps.trackStartTime env.now < 10000 ∧
        ps.currentTrack.isSome ∧ ps.retryCount < 3 then
      -- premature interruption (lines 774-809): notify, retryCount++, schedule 3s retry
      ⟨some { ps with retryCount := ps.retryCount + 1 }, loading, some .retryCurrent,
        [.notifyRecovering (((ps.currentTrack).map ITrackInfo.title).getD "")]⟩
    else
      match ps.trackQueue with
      | next :: rest =>
        -- advance (lines 816-846): isLoadingTrack := true, shift the queue, playTrack
        let ps1 := { ps with trackQueue := rest }
        let ti := trackToTrackInfo next
        let r := playTrack (some ps1) ti (env.resolve ti.id) env.nowPlay env.fb
        if r.success then ⟨r.state, false, none, r.effects⟩
        else ⟨r.state, true, some .failAdvance, r.effects⟩
      | [] =>
        -- refill (lines 847-881)
        match env.refill with
        | [] => ⟨some ps, false, none, [.notifyExhausted]⟩
        | t :: ts =>
          ⟨some { ps with trackQueue := ps.trackQueue ++ (t :: ts) }, true,
            some .refillKick, []⟩

/-- Immediate part of the `error` handler (player.service.ts lines
718-755): bail out when the state or the current track is absent, otherwise
surface a transient-error notice and schedule the 3 s retry timer.  Note
that this handler never consults `isLoadingTrack`. -/
def onError (registry : Option PlayerState) : Option Pending × List Effect :=
  match registry with
  | none => (none, [])
  | some ps =>
    match ps.currentTrack with
    | none => (none, [])
    | some ct => (some .errorRetry, [.notifyTransientError ct.title])

/-- The two transport events wired in `setupInfinitePlayback`. -/
inductive TransportEvent where
  | idle
  | error
  deriving DecidableEq, Repr

/-- Dispatch of one transport event against the session.  The error handler
leaves registry state and the loading flag untouched (it only notifies and
schedules a timer). -/
def onTransportEvent (e : TransportEvent) (registry : Option PlayerState)
    (loading : Bool) (env : Env) : StepOut :=
  match e with
  | .idle => onIdle registry loading env
  | .error => ⟨registry, loading, (onError registry).1, (onError registry).2⟩

/-- Callback of the idle-path retry timer (player.service.ts lines
802-806): the closure re-checks `currentTrack` on the captured state object
and re-issues it via `playTrack`.  `registry` is the registry entry at
firing time — after a `stop` it is `none` while the captured object is
untouched. -/
def fireRetryCurrent (captured : PlayerState) (registry : Option PlayerState)
    (resolve : String → Option String) (now : Nat) (fb : Bool) :
    Option PlayerState × List Effect :=
  match captured.currentTrack with
  | some ct =>
    let r := playTrack registry ct (resolve ct.id) now fb
    (r.state, r.effects)
  | none => (registry, [])

/-- Callback of the error-path retry timer (player.service.ts lines
741-754) in the live case, where the captured object is the registry entry:
below the retry cap and with a current track it bumps `retryCount` and
re-issues the track; otherwise it clears `isLoadingTrack` and re-emits
`Idle`. -/
def fireErrorRetry (ps : PlayerState) (loading : Bool)
    (resolve : String → Option String) (now : Nat) (fb : Bool) :
    Option PlayerState × Bool × List Effect :=
  match ps.currentTrack with
  | some ct =>
    if ps.retryCount < 3 then
      let ps1 := { ps with retryCount := ps.retryCount + 1 }
      let r := playTrack (some ps1) ct (resolve ct.id) now fb
      (r.state, loading, r.effects)
    else (some ps, false, [.emitIdle])
  | none => (some ps, false, [.emitIdle])

/-- Output of a button handler. -/
structure HOut where
  ps : Option PlayerState
  reply : Reply
  effects : List Effect
  deriving DecidableEq, Repr

/-- Handler `handlePrevious` (player.service.ts lines 284-344): reject on an empty
history, otherwise `pop()` the newest history entry, `unshift` the current
track onto the queue (lines 310-320) and start the popped track via
`playTrack`. -/
def handlePrevious (registry : Option PlayerState) (resolve : String → Option String)
    (now : Nat) (fb : Bool) : HOut :=
  match registry with
  | none => ⟨none, .notFound, []⟩
  | some ps =>
    if ps.previousTracks.length = 0 then ⟨some ps, .noPrevious, []⟩
    else
      match ps.previousTracks.getLast? with
      | none => ⟨some ps, .noPrevious, []⟩
      | some prev =>
        let ps1 := { ps with previousTracks := ps.previousTracks.dropLast }
        let ps2 :=
          match ps1.currentTrack with
          | some ct => { ps1 with trackQueue := toYandexTrack ct :: ps1.trackQueue }
          | none => ps1
        let ti := trackToTrackInfo prev
        let r := playTrack (some ps2) ti (resolve ti.id) now fb
        ⟨r.state, .prevOk, r.effects⟩

/-- Handler `handleStop` (player.service.ts lines 425-472): stop the player,
destroy the connection, delete every map entry for the guild.  The body
contains no `clearTimeout`; pending timers survive. -/
def handleStop (registry : Option PlayerState) : Option PlayerState × List Effect :=
  match registry with
  | none => (none, [])
  | some _ => (none, [.stopTransport, .destroyConnection, .notifyStopped])

/-- Handler `handlePause` (lines 349-382): suspend and record `isPlaying := false`. -/
def handlePause (registry : Option PlayerState) : Option PlayerState :=
  registry.map fun ps => { ps with isPlaying := false }

/-- Handler `handlePlay` (lines 387-420): resume and record `isPlaying := true`. -/
def handlePlay (registry : Option PlayerState) : Option PlayerState :=
  registry.map fun ps => { ps with isPlaying := true }

/-- Setup step of `setupInfinitePlayback`, lines 677-681: install the initial queue. -/
def setupQueue (registry : Option PlayerState) (initialTracks : List IYandexTrack) :
    Option PlayerState :=
  registry.map fun ps => { ps with trackQueue := initialTracks }

/-- Parameters of `createPlayer` that reach the stored state. -/
structure InitParams where
  accessToken : String
  userId : String
  stationId : String
  deriving DecidableEq, Repr

/-- The fresh state installed by `createPlayer` (player.service.ts lines
152-164). -/
def initialState (p : InitParams) : PlayerState :=
  { isPlaying := false
    currentTrack := none
    previousTracks := []
    trackQueue := []
    accessToken := p.accessToken
    userId := p.userId
    stationId := p.stationId
    trackStartTime := none
    retryCount := 0
    lastTrackId := none }

/-- The session registry (`playerStates` keyed by guild id). -/
abbrev SessionRegistry := List (String × PlayerState)

/-- Outcome of the session-creation operation. -/
inductive CreateResult where
  | created (registry : SessionRegistry)
  | alreadyActive
  deriving DecidableEq, Repr

/-- Modelled from the spec: the "already active" guard of session creation
lives in the play command, which is not under src/ (src only holds its
callee `createPlayer`).  Per spec section 4.1, `getOrCreate(key, initParams)`
rejects when a session already exists for `key`; on success it installs the
fresh state of `createPlayer` (player.service.ts lines 152-164). -/
def getOrCreate (r : SessionRegistry) (key : String) (p : InitParams) : CreateResult :=
  match r.lookup key with
  | some _ => CreateResult.alreadyActive
  | none => CreateResult.created ((key, initialState p) :: r)

/-- World of one session key: the registry entry and the
`isLoadingTrack` closure flag of its `setupInfinitePlayback` call. -/
structure World where
  registry : Option PlayerState
  loading : Bool

/-- Reachable worlds of one session key: creation, queue setup, the two
transport events, the timer callbacks (including a stale idle-path retry
timer firing after the registry entry is gone), the button handlers, and
the flag-clearing timers (`failAdvance` / `refillKick`, whose re-emitted
`Idle` is covered by the `idle` step). -/
inductive Reach : World → Prop where
  | created (p : InitParams) : Reach ⟨some (initialState p), false⟩
  | setup (w : World) (ts : List IYandexTrack) : Reach w →
      Reach ⟨setupQueue w.registry ts, false⟩
  | idle (w : World) (env : Env) : Reach w →
      Reach ⟨(onIdle w.registry w.loading env).ps, (onIdle w.registry w.loading env).loading⟩
  | retryTimer (w : World) (ps : PlayerState) (resolve : String → Option String)
      (now : Nat) (fb : Bool) : Reach w → w.registry = some ps →
      Reach ⟨(fireRetryCurrent ps (some ps) resolve now fb).1, w.loading⟩
  | staleRetryTimer (w : World) (ps : PlayerState) (resolve : String → Option String)
      (now : Nat) (fb : Bool) : Reach w → w.registry = none →
      Reach ⟨(fireRetryCurrent ps none resolve now fb).1, w.loading⟩
  | errTimer (w : World) (ps : PlayerState) (resolve : String → Option String)
      (now : Nat) (fb : Bool) : Reach w → w.registry = some ps →
      Reach ⟨(fireErrorRetry ps w.loading resolve now fb).1,
        (fireErrorRetry ps w.loading resolve now fb).2.1⟩
  | prevStep (w : World) (resolve : String → Option String) (now : Nat) (fb : Bool) :
      Reach w → Reach ⟨(handlePrevious w.registry resolve now fb).ps, w.loading⟩
  | pauseStep (w : World) : Reach w → Reach ⟨handlePause w.registry, w.loading⟩
  | playStep (w : World) : Reach w → Reach ⟨handlePlay w.registry, w.loading⟩
  | stopStep (w : World) : Reach w → Reach ⟨(handleStop w.registry).1, w.loading⟩
  | kickTimer (w : World) : Reach w → Reach ⟨w.registry, false⟩

/-! ### Helper lemmas -/

theorem startTrackState_trackQueue (ps : PlayerState) (t : ITrackInfo) (now : Nat) :
    (startTrackState ps t now).trackQueue = ps.trackQueue := by
  unfold startTrackState
  cases ps.currentTrack <;> rfl

theorem startTrackState_currentTrack (ps : PlayerState) (t : ITrackInfo) (now : Nat) :
    (startTrackState ps t now).currentTrack = some t := by
  unfold startTrackState
  cases ps.currentTrack <;> rfl

theorem startTrackState_retryCount (ps : PlayerState) (t : ITrackInfo) (now : Nat) :
    (startTrackState ps t now).retryCount = 0 := by
  unfold startTrackState
  cases ps.currentTrack <;> rfl

theorem startTrackState_previousTracks (ps : PlayerState) (ct t : ITrackInfo) (now : Nat)
    (hct : ps.currentTrack = some ct) :
    (startTrackState ps t now).previousTracks = pushHistory ps.previousTracks (toYandexTrack ct) := by
  unfold startTrackState
  rw [hct]

theorem pushHistory_getLast (hist : List IYandexTrack) (t : IYandexTrack) :
    (pushHistory hist t).getLast? = some t := by
  unfold pushHistory
  exact List.getLast?_concat _

theorem pushHistory_length_le (hist : List IYandexTrack) (t : IYandexTrack)
    (h : hist.length ≤ 10) : (pushHistory hist t).length ≤ 10 := by
  unfold pushHistory
  by_cases h10 : hist.length ≥ 10
  · rw [if_pos h10]
    simp only [List.length_append, List.length_drop, List.length_cons, List.length_nil]
    omega
  · rw [if_neg h10]
    simp only [List.length_append, List.length_cons, List.length_nil]
    omega

/-! ### Claim theorems -/

/-- Claim C7: when `getStreamUrl` resolves to nothing, `playTrack` surfaces
the stream-fetch error to the presentation (`updateEmbedWithError`, line
586), returns failure, and leaves the session state it was given — current
track, queue, history, start time, retry count, last track id — untouched
(lines 582-589 run before any state mutation). -/
theorem playTrack_streamFail_unchanged (ps? : Option PlayerState) (t : ITrackInfo)
    (now : Nat) (fb : Bool) :
    playTrack ps? t none now fb =
      ⟨false, ps?, [Effect.notifyLoading t, Effect.feedbackRequested t.id,
        Effect.streamError t.title]⟩ := rfl

/-- Claim C8: the start-of-track feedback is fire-and-forget: `playTrack`
behaves identically whatever the feedback outcome is, and with a resolvable
stream it starts the track successfully regardless of that outcome
(player.service.ts line 578 discards the result; the never-throwing call
itself is modelled from the spec, see `playTrack`). -/
theorem feedback_not_sync_critical (ps? : Option PlayerState) (t : ITrackInfo)
    (u : Option String) (now : Nat) (fb fb2 : Bool) (url : String) :
    playTrack ps? t u now fb = playTrack ps? t u now fb2 ∧
    (playTrack ps? t (some url) now fb).success = true :=
  ⟨rfl, rfl⟩

/-- Claim C9: a `previous` command with an empty history is rejected with
the "no previous tracks" reply (player.service.ts lines 296-302) and the
session state is returned unchanged — no queue, history, current-track,
retry or start-time mutation. -/
theorem previous_empty_history_rejected (ps : PlayerState)
    (resolve : String → Option String) (now : Nat) (fb : Bool)
    (h : ps.previousTracks = []) :
    handlePrevious (some ps) resolve now fb = ⟨some ps, Reply.noPrevious, []⟩ := by
  unfold handlePrevious
  simp [h]

def trkW : IYandexTrack := ⟨"y1", "SongY", [⟨"ArtY"⟩], [⟨"AlbY"⟩], ""⟩

def psEmptyHist : PlayerState :=
  ⟨false, none, [], [trkW], "tok", "u", "st", none, 0, none⟩

theorem previous_empty_history_rejected_witness :
    handlePrevious (some psEmptyHist) (fun _ => none) 0 true =
      ⟨some psEmptyHist, Reply.noPrevious, []⟩ :=
  previous_empty_history_rejected psEmptyHist (fun _ => none) 0 true rfl

/-- Claim C6: creating a session for a key that already holds one is
rejected with the "already active" signal instead of silently reusing or
duplicating the session (guard modelled from the spec, state installation
from `createPlayer`; see `getOrCreate`). -/
theorem getOrCreate_second_rejected (r : SessionRegistry) (key : String)
    (p p2 : InitParams) (r2 : SessionRegistry)
    (h : getOrCreate r key p = CreateResult.created r2) :
    getOrCreate r2 key p2 = CreateResult.alreadyActive := by
  unfold getOrCreate at h ⊢
  cases hl : r.lookup key with
  | some v => rw [hl] at h; cases h
  | none =>
    rw [hl] at h
    cases h
    simp [List.lookup]

def pW : InitParams := ⟨"tok", "user-1", "station-1"⟩

theorem getOrCreate_second_rejected_witness :
    getOrCreate [("guild-1", initialState pW)] "guild-1" pW = CreateResult.alreadyActive :=
  getOrCreate_second_rejected [] "guild-1" pW pW [("guild-1", initialState pW)] rfl

def ctE : ITrackInfo := ⟨"e1", "TrackE", "ArtE", "AlbE", none⟩

def psE : PlayerState :=
  ⟨true, some ctE, [], [], "tok", "u", "st", some 50, 0, some "e1"⟩

def envE : Env := ⟨fun _ => none, [], 60, 70, true⟩

/-- Claim C3 (counterexample): a transport `error` event arriving while
`isLoadingTrack` is true is NOT ignored — at this concrete session state
the error handler still schedules its 3 s retry timer, because the handler
(player.service.ts lines 718-755) never consults `isLoadingTrack`; only the
`Idle` handler does (lines 762-765). -/
theorem error_event_not_ignored_while_loading :
    (onTransportEvent TransportEvent.error (some psE) true envE).pending =
      some Pending.errorRetry ∧
    (onTransportEvent TransportEvent.error (some psE) true envE).effects ≠ [] := by
  exact ⟨rfl, by decide⟩

/-- Claim C3 (amended): only `Idle` events are guarded by `isLoadingTrack`:
an idle event arriving while the flag is true is fully ignored (state,
flag, no timer, no effects), whereas an `error` event with a registered
state and a current track always surfaces the transient-error notice and
schedules the 3 s retry timer, whatever the flag holds. -/
theorem loading_guard_applies_to_idle_only (reg : Option PlayerState)
    (env env2 : Env) (ps : PlayerState) (ct : ITrackInfo) (ld : Bool)
    (hct : ps.currentTrack = some ct) :
    onTransportEvent TransportEvent.idle reg true env = ⟨reg, true, none, []⟩ ∧
    onTransportEvent TransportEvent.error (some ps) ld env2 =
      ⟨some ps, ld, some Pending.errorRetry, [Effect.notifyTransientError ct.title]⟩ := by
  constructor
  · cases reg with
    | none => rfl
    | some ps0 => rfl
  · simp [onTransportEvent, onError, hct]

theorem loading_guard_applies_to_idle_only_witness :
    onTransportEvent TransportEvent.idle (some psE) true envE = ⟨some psE, true, none, []⟩ ∧
    onTransportEvent TransportEvent.error (some psE) false envE =
      ⟨some psE, false, some Pending.errorRetry, [Effect.notifyTransientError ctE.title]⟩ :=
  loading_guard_applies_to_idle_only (some psE) envE envE psE ctE false rfl

def ctA : ITrackInfo := ⟨"a1", "TrackA", "ArtA", "AlbA", none⟩

def psA : PlayerState :=
  ⟨true, some ctA, [], [], "tok", "u", "st", some 1000, 0, some "a1"⟩

def envA : Env := ⟨fun _ => some "https://cdn/a1", [], 2000, 2100, true⟩

def psA1 : PlayerState := { psA with retryCount := 1 }

/-- Claim C4 (code bug): an idle event at t = 2000 on `psA` (track started
at t = 1000) schedules the 3 s retry timer; `handleStop` (player.service.ts
lines 438-447) then deletes the registry entries but contains no
`clearTimeout` — nothing in the file cancels timers — and does not clear
`currentTrack` on the captured state object, so when the timer fires its
guard (line 803) passes and `playTrack` runs: the registry lookup inside it
misses (no state mutation) but `player.play(resource)` on line 636 still
issues the track to the transport of the supposedly destroyed session. -/
theorem stop_leaves_stale_retry_timer :
    (onIdle (some psA) false envA).pending = some Pending.retryCurrent ∧
    (onIdle (some psA) false envA).ps = some psA1 ∧
    (handleStop (some psA1)).1 = none ∧
    (fireRetryCurrent psA1 none (fun _ => some "https://cdn/a1") 5000 true).1 = none ∧
    Effect.playOnTransport ctA ∈
      (fireRetryCurrent psA1 none (fun _ => some "https://cdn/a1") 5000 true).2 := by
  refine ⟨by decide, by decide, rfl, rfl, ?_⟩
  simp [fireRetryCurrent, psA1, psA, playTrack]

/-- Claim C1: an idle event that reaches the controller (`isLoadingTrack`
false) while a current track exists, the elapsed time since
`trackStartTime` is below 10,000 ms and `retryCount` is below 3 is
classified as a premature interruption (player.service.ts lines 768-809):
`retryCount` is incremented by exactly 1, the 3,000 ms retry timer is
scheduled, no queue advance happens, and the timer callback re-issues
exactly the same current track through `playTrack` (lines 802-806),
still without touching the queue. -/
theorem idle_premature_interruption_retries (ps : PlayerState) (env : Env)
    (ct : ITrackInfo) (t0 : Nat) (resolve : String → Option String)
    (now2 : Nat) (fb : Bool)
    (hct : ps.currentTrack = some ct)
    (ht : ps.trackStartTime = some t0)
    (helapsed : env.now - t0 < 10000)
    (hretry : ps.retryCount < 3) :
    onIdle (some ps) false env =
      ⟨some { ps with retryCount := ps.retryCount + 1 }, false, some Pending.retryCurrent,
        [Effect.notifyRecovering ct.title]⟩ ∧
    pendingDelay Pending.retryCurrent = 3000 ∧
    fireRetryCurrent { ps with retryCount := ps.retryCount + 1 }
        (some { ps with retryCount := ps.retryCount + 1 }) resolve now2 fb =
      ((playTrack (some { ps with retryCount := ps.retryCount + 1 }) ct
          (resolve ct.id) now2 fb).state,
       (playTrack (some { ps with retryCount := ps.retryCount + 1 }) ct
          (resolve ct.id) now2 fb).effects) ∧
    ((fireRetryCurrent { ps with retryCount := ps.retryCount + 1 }
        (some { ps with retryCount := ps.retryCount + 1 }) resolve now2 fb).1.map
      (fun s => s.trackQueue)) = some ps.trackQueue := by
  have hcond : playTime ps.trackStartTime env.now < 10000 ∧
      ps.currentTrack.isSome ∧ ps.retryCount < 3 := by
    refine ⟨?_, by simp [hct], hretry⟩
    rw [ht]
    unfold playTime
    by_cases h0 : t0 = 0
    · simp [h0]
    · simpa [h0] using helapsed
  have hfire : fireRetryCurrent { ps with retryCount := ps.retryCount + 1 }
      (some { ps with retryCount := ps.retryCount + 1 }) resolve now2 fb =
      ((playTrack (some { ps with retryCount := ps.retryCount + 1 }) ct
          (resolve ct.id) now2 fb).state,
       (playTrack (some { ps with retryCount := ps.retryCount + 1 }) ct
          (resolve ct.id) now2 fb).effects) := by
    simp only [fireRetryCurrent, hct]
  refine ⟨?_, rfl, hfire, ?_⟩
  · simp only [onIdle]
    rw [if_neg (by simp), if_pos hcond]
    simp [hct]
  · rw [hfire]
    cases hres : resolve ct.id with
    | none => simp [playTrack, hres]
    | some u => simp [playTrack, hres, startTrackState_trackQueue]

def ctW1 : ITrackInfo := ⟨"w1", "TrackW", "ArtW", "AlbW", none⟩

def psW1 : PlayerState :=
  ⟨true, some ctW1, [], [trkW], "tok", "u", "st", some 100, 0, some "w1"⟩

def envW1 : Env := ⟨fun _ => none, [], 200, 300, true⟩

theorem idle_premature_interruption_retries_witness :
    onIdle (some psW1) false envW1 =
      ⟨some { psW1 with retryCount := psW1.retryCount + 1 }, false,
        some Pending.retryCurrent, [Effect.notifyRecovering ctW1.title]⟩ :=
  (idle_premature_interruption_retries psW1 envW1 ctW1 100 (fun _ => none) 400 true
    rfl rfl (by decide) (by decide)).1

/-- Claim C2: once `retryCount` has reached 3, the next idle event fails
the premature-interruption test (line 774) and instead advances to the head
of the queue (lines 816-839); when that track starts successfully,
`playTrack` resets `retryCount` to 0 (line 651), leaves the loading flag
cleared and schedules no timer. -/
theorem idle_retry_exhausted_advances (ps : PlayerState) (env : Env)
    (next : IYandexTrack) (rest : List IYandexTrack) (url : String)
    (hretry : ps.retryCount = 3)
    (hq : ps.trackQueue = next :: rest)
    (hres : env.resolve next.id = some url) :
    (onIdle (some ps) false env).pending = none ∧
    (onIdle (some ps) false env).loading = false ∧
    ((onIdle (some ps) false env).ps.map fun s => s.currentTrack) =
      some (some (trackToTrackInfo next)) ∧
    ((onIdle (some ps) false env).ps.map fun s => s.retryCount) = some 0 ∧
    ((onIdle (some ps) false env).ps.map fun s => s.trackQueue) = some rest := by
  have hncond : ¬(playTime ps.trackStartTime env.now < 10000 ∧
      ps.currentTrack.isSome ∧ ps.retryCount < 3) := by
    simp [hretry]
  have hid : (trackToTrackInfo next).id = next.id := rfl
  have key : onIdle (some ps) false env =
      ⟨some (startTrackState { ps with trackQueue := rest } (trackToTrackInfo next) env.nowPlay),
        false, none,
        [Effect.notifyLoading (trackToTrackInfo next),
         Effect.feedbackRequested (trackToTrackInfo next).id,
         Effect.playOnTransport (trackToTrackInfo next),
         Effect.notifyNowPlaying (trackToTrackInfo next)]⟩ := by
    simp only [onIdle]
    rw [if_neg (by simp), if_neg hncond, hq]
    simp [hid, hres, playTrack]
  rw [key]
  refine ⟨rfl, rfl, ?_, ?_, ?_⟩
  · simp [startTrackState_currentTrack]
  · simp [startTrackState_retryCount]
  · simp [startTrackState_trackQueue]

def psX : PlayerState :=
  ⟨true, some ctE, [], [trkW], "tok", "u", "st", some 1, 3, some "e1"⟩

def envX : Env := ⟨fun _ => some "https://cdn/y1", [], 5, 6, true⟩

theorem idle_retry_exhausted_advances_witness :
    (onIdle (some psX) false envX).pending = none ∧
    (onIdle (some psX) false envX).loading = false ∧
    ((onIdle (some psX) false envX).ps.map fun s => s.currentTrack) =
      some (some (trackToTrackInfo trkW)) ∧
    ((onIdle (some psX) false envX).ps.map fun s => s.retryCount) = some 0 ∧
    ((onIdle (some psX) false envX).ps.map fun s => s.trackQueue) = some [] :=
  idle_retry_exhausted_advances psX envX trkW [] "https://cdn/y1" rfl rfl rfl

/-- Claim C10: after a successful `previous` with a current track, the
formerly-current track sits both at the front of the queue (the `unshift`
of player.service.ts line 319) and as the newest history entry (pushed
again by `playTrack`, line 619, because `currentTrack` is still the old
track when `playTrack` runs), while the popped history track becomes the
new current track. -/
theorem previous_requeues_current_track_twice (ps : PlayerState)
    (histInit : List IYandexTrack) (prev : IYandexTrack) (ct : ITrackInfo)
    (resolve : String → Option String) (now : Nat) (fb : Bool) (url : String)
    (hh : ps.previousTracks = histInit ++ [prev])
    (hct : ps.currentTrack = some ct)
    (hres : resolve prev.id = some url) :
    (handlePrevious (some ps) resolve now fb).reply = Reply.prevOk ∧
    ((handlePrevious (some ps) resolve now fb).ps.map fun s => s.trackQueue) =
      some (toYandexTrack ct :: ps.trackQueue) ∧
    ((handlePrevious (some ps) resolve now fb).ps.map fun s => s.currentTrack) =
      some (some (trackToTrackInfo prev)) ∧
    ((handlePrevious (some ps) resolve now fb).ps.map fun s => s.previousTracks) =
      some (pushHistory histInit (toYandexTrack ct)) ∧
    (pushHistory histInit (toYandexTrack ct)).getLast? = some (toYandexTrack ct) := by
  have hlen : ¬(ps.previousTracks.length = 0) := by
    rw [hh]; simp
  have hlast : ps.previousTracks.getLast? = some prev := by
    rw [hh]; exact List.getLast?_concat _
  have hdrop : ps.previousTracks.dropLast = histInit := by
    rw [hh]; exact List.dropLast_concat
  have hid : (trackToTrackInfo prev).id = prev.id := rfl
  have key : handlePrevious (some ps) resolve now fb =
      ⟨some (startTrackState
          { ps with previousTracks := histInit,
                    trackQueue := toYandexTrack ct :: ps.trackQueue }
          (trackToTrackInfo prev) now),
        Reply.prevOk,
        [Effect.notifyLoading (trackToTrackInfo prev),
         Effect.feedbackRequested (trackToTrackInfo prev).id,
         Effect.playOnTransport (trackToTrackInfo prev),
         Effect.notifyNowPlaying (trackToTrackInfo prev)]⟩ := by
    simp only [handlePrevious]
    rw [if_neg hlen, hlast]
    simp [hdrop, hct, hid, hres, playTrack]
  have hct2 : ({ ps with previousTracks := histInit, trackQueue := toYandexTrack ct :: ps.trackQueue } : PlayerState).currentTrack = some ct := hct
  rw [key]
  refine ⟨rfl, ?_, ?_, ?_, pushHistory_getLast _ _⟩
  · simp [startTrackState_trackQueue]
  · simp [startTrackState_currentTrack]
  · simp [startTrackState_previousTracks _ ct _ _ hct2]

def psP : PlayerState :=
  ⟨true, some ctE, [trkW], [], "tok", "u", "st", some 7, 0, some "e1"⟩

theorem previous_requeues_current_track_twice_witness :
    (handlePrevious (some psP) (fun _ => some "https://cdn/p") 9 true).reply = Reply.prevOk ∧
    ((handlePrevious (some psP) (fun _ => some "https://cdn/p") 9 true).ps.map
        fun s => s.trackQueue) = some (toYandexTrack ctE :: psP.trackQueue) ∧
    ((handlePrevious (some psP) (fun _ => some "https://cdn/p") 9 true).ps.map
        fun s => s.currentTrack) = some (some (trackToTrackInfo trkW)) ∧
    ((handlePrevious (some psP) (fun _ => some "https://cdn/p") 9 true).ps.map
        fun s => s.previousTracks) = some (pushHistory [] (toYandexTrack ctE)) ∧
    (pushHistory [] (toYandexTrack ctE)).getLast? = some (toYandexTrack ctE) :=
  previous_requeues_current_track_twice psP [] trkW ctE (fun _ => some "https://cdn/p")
    9 true "https://cdn/p" rfl rfl rfl

/-! ### History-bound invariant (claim C5) -/

/-- The history bound, read off an optional registry entry. -/
def histOKopt (o : Option PlayerState) : Prop :=
  ∀ ps, o = some ps → ps.previousTracks.length ≤ 10

theorem startTrackState_hist_le (ps : PlayerState) (t : ITrackInfo) (now : Nat)
    (h : ps.previousTracks.length ≤ 10) :
    (startTrackState ps t now).previousTracks.length ≤ 10 := by
  unfold startTrackState
  cases hc : ps.currentTrack with
  | none => simpa using h
  | some ct => simpa using pushHistory_length_le _ _ h

theorem playTrack_histOK (ps? : Option PlayerState) (t : ITrackInfo)
    (u : Option String) (now : Nat) (fb : Bool)
    (h : histOKopt ps?) : histOKopt (playTrack ps? t u now fb).state := by
  cases u with
  | none => simpa [playTrack] using h
  | some url =>
    intro ps2 h2
    cases hps : ps? with
    | none => rw [hps] at h2; simp [playTrack] at h2
    | some ps0 =>
      rw [hps] at h2
      simp [playTrack] at h2
      rw [← h2]
      exact startTrackState_hist_le ps0 t now (h ps0 hps)

theorem onIdle_ps_advance (ps0 : PlayerState) (env : Env)
    (next : IYandexTrack) (rest : List IYandexTrack)
    (hcond : ¬(playTime ps0.trackStartTime env.now < 10000 ∧
      ps0.currentTrack.isSome ∧ ps0.retryCount < 3))
    (hq : ps0.trackQueue = next :: rest) :
    (onIdle (some ps0) false env).ps =
      (playTrack (some { ps0 with trackQueue := rest }) (trackToTrackInfo next)
        (env.resolve (trackToTrackInfo next).id) env.nowPlay env.fb).state := by
  simp only [onIdle]
  rw [if_neg (by simp), if_neg hcond, hq]
  by_cases hs : (playTrack (some { ps0 with trackQueue := rest }) (trackToTrackInfo next)
      (env.resolve (trackToTrackInfo next).id) env.nowPlay env.fb).success
  · simp [hs]
  · simp [hs]

theorem onIdle_histOK (reg : Option PlayerState) (b : Bool) (env : Env)
    (h : histOKopt reg) : histOKopt (onIdle reg b env).ps := by
  cases reg with
  | none => intro ps hps; simp [onIdle] at hps
  | some ps0 =>
    have h0 : ps0.previousTracks.length ≤ 10 := h ps0 rfl
    cases b with
    | true =>
      intro ps hps
      simp [onIdle] at hps
      rw [← hps]
      exact h0
    | false =>
      by_cases hcond : playTime ps0.trackStartTime env.now < 10000 ∧
          ps0.currentTrack.isSome ∧ ps0.retryCount < 3
      · intro ps hps
        simp [onIdle, hcond] at hps
        rw [← hps]
        simpa using h0
      · cases hq : ps0.trackQueue with
        | cons next rest =>
          intro ps hps
          rw [onIdle_ps_advance ps0 env next rest hcond hq] at hps
          refine playTrack_histOK _ _ _ _ _ ?_ ps hps
          intro ps1 hps1
          cases Option.some.inj hps1
          simpa using h0
        | nil =>
          cases hr : env.refill with
          | nil =>
            intro ps hps
            simp [onIdle, hcond, hq, hr] at hps
            rw [← hps]
            exact h0
          | cons t ts =>
            intro ps hps
            simp [onIdle, hcond, hq, hr] at hps
            rw [← hps]
            simpa using h0

theorem fireRetryCurrent_histOK (captured : PlayerState) (reg : Option PlayerState)
    (resolve : String → Option String) (now : Nat) (fb : Bool)
    (h : histOKopt reg) :
    histOKopt (fireRetryCurrent captured reg resolve now fb).1 := by
  unfold fireRetryCurrent
  cases hc : captured.currentTrack with
  | none => simpa using h
  | some ct => exact playTrack_histOK _ _ _ _ _ h

theorem fireErrorRetry_histOK (ps : PlayerState) (b : Bool)
    (resolve : String → Option String) (now : Nat) (fb : Bool)
    (h : ps.previousTracks.length ≤ 10) :
    histOKopt (fireErrorRetry ps b resolve now fb).1 := by
  cases hc : ps.currentTrack with
  | none =>
    have hred : (fireErrorRetry ps b resolve now fb).1 = some ps := by
      simp [fireErrorRetry, hc]
    rw [hred]
    intro q hq
    cases Option.some.inj hq
    exact h
  | some ct =>
    by_cases hlt : ps.retryCount < 3
    · have hred : (fireErrorRetry ps b resolve now fb).1 =
          (playTrack (some { ps with retryCount := ps.retryCount + 1 }) ct
            (resolve ct.id) now fb).state := by
        simp [fireErrorRetry, hc, hlt]
      rw [hred]
      refine playTrack_histOK _ _ _ _ _ ?_
      intro q hq
      cases Option.some.inj hq
      simpa using h
    · have hred : (fireErrorRetry ps b resolve now fb).1 = some ps := by
        simp [fireErrorRetry, hc, hlt]
      rw [hred]
      intro q hq
      cases Option.some.inj hq
      exact h

theorem handlePrevious_histOK (reg : Option PlayerState)
    (resolve : String → Option String) (now : Nat) (fb : Bool)
    (h : histOKopt reg) : histOKopt (handlePrevious reg resolve now fb).ps := by
  cases reg with
  | none => intro q hq; simp [handlePrevious] at hq
  | some ps0 =>
    have h0 : ps0.previousTracks.length ≤ 10 := h ps0 rfl
    have hdOK : ps0.previousTracks.dropLast.length ≤ 10 := by
      rw [List.length_dropLast]; omega
    by_cases hlen : ps0.previousTracks.length = 0
    · intro q hq
      simp [handlePrevious, hlen] at hq
      rw [← hq]
      exact h0
    · cases hlast : ps0.previousTracks.getLast? with
      | none =>
        intro q hq
        simp [handlePrevious, hlen, hlast] at hq
        rw [← hq]
        exact h0
      | some prev =>
        cases hct : ps0.currentTrack with
        | none =>
          intro q hq
          simp only [handlePrevious] at hq
          rw [if_neg hlen, hlast] at hq
          simp only [hct] at hq
          refine playTrack_histOK _ _ _ _ _ ?_ q hq
          intro q2 hq2
          cases Option.some.inj hq2
          simpa using hdOK
        | some ct =>
          intro q hq
          simp only [handlePrevious] at hq
          rw [if_neg hlen, hlast] at hq
          simp only [hct] at hq
          refine playTrack_histOK _ _ _ _ _ ?_ q hq
          intro q2 hq2
          cases Option.some.inj hq2
          simpa using hdOK

theorem reach_histOK (w : World) (hw : Reach w) : histOKopt w.registry := by
  induction hw with
  | created p =>
    intro ps hps
    cases Option.some.inj hps
    simp [initialState]
  | setup w ts hR ih =>
    intro ps hps
    cases hreg : w.registry with
    | none => rw [hreg] at hps; simp [setupQueue] at hps
    | some ps0 =>
      rw [hreg] at hps
      simp [setupQueue] at hps
      rw [← hps]
      simpa using ih ps0 hreg
  | idle w env hR ih => exact onIdle_histOK _ _ _ ih
  | retryTimer w ps resolve now fb hR hreg ih =>
    refine fireRetryCurrent_histOK _ _ _ _ _ ?_
    intro q hq
    cases Option.some.inj hq
    exact ih _ hreg
  | staleRetryTimer w ps resolve now fb hR hreg ih =>
    refine fireRetryCurrent_histOK _ _ _ _ _ ?_
    intro q hq
    cases hq
  | errTimer w ps resolve now fb hR hreg ih =>
    exact fireErrorRetry_histOK _ _ _ _ _ (ih ps hreg)
  | prevStep w resolve now fb hR ih => exact handlePrevious_histOK _ _ _ _ ih
  | pauseStep w hR ih =>
    intro q hq
    cases hreg : w.registry with
    | none => rw [hreg] at hq; simp [handlePause] at hq
    | some ps0 =>
      rw [hreg] at hq
      simp [handlePause] at hq
      rw [← hq]
      simpa using ih ps0 hreg
  | playStep w hR ih =>
    intro q hq
    cases hreg : w.registry with
    | none => rw [hreg] at hq; simp [handlePlay] at hq
    | some ps0 =>
      rw [hreg] at hq
      simp [handlePlay] at hq
      rw [← hq]
      simpa using ih ps0 hreg
  | stopStep w hR ih =>
    intro q hq
    cases hreg : w.registry with
    | none => rw [hreg] at hq; simp [handleStop] at hq
    | some ps0 => rw [hreg] at hq; simp [handleStop] at hq
  | kickTimer w hR ih => exact ih

/-- Claim C5: in every reachable world of a session the history
(`previousTracks`) holds at most 10 entries, and pushing onto a history
that already holds 10 first evicts the oldest entry (the `shift()` before
`push` of player.service.ts lines 614-619), keeping the length at 10. -/
theorem history_bounded_invariant :
    (∀ w : World, Reach w → ∀ ps, w.registry = some ps →
      ps.previousTracks.length ≤ 10) ∧
    (∀ (hist : List IYandexTrack) (t : IYandexTrack), hist.length = 10 →
      pushHistory hist t = hist.drop 1 ++ [t] ∧ (pushHistory hist t).length = 10) := by
  constructor
  · intro w hw
    exact reach_histOK w hw
  · intro hist t hlen
    constructor
    · unfold pushHistory
      rw [if_pos (by omega)]
    · unfold pushHistory
      rw [if_pos (by omega)]
      simp only [List.length_append, List.length_drop, List.length_cons, List.length_nil]
      omega

def h10 : List IYandexTrack := List.replicate 10 trkW

theorem history_bounded_invariant_witness :
    (initialState pW).previousTracks.length ≤ 10 ∧
    (pushHistory h10 trkW = h10.drop 1 ++ [trkW] ∧ (pushHistory h10 trkW).length = 10) :=
  ⟨history_bounded_invariant.1 ⟨some (initialState pW), false⟩ (Reach.created pW)
      (initialState pW) rfl,
   history_bounded_invariant.2 h10 trkW (by decide)⟩

end YmBot
